import Mathlib

/-!
Shallow embedding of the ProductHunt leaderboard scraper
(`producthunt_scraper.py` and `main.py`).

The parsed HTML document is modelled as a forest of `Node`s, mirroring the
BeautifulSoup element tree that the code traverses: an element node carries
its tag name, its attribute list, its (multi-valued) `class` attribute and
its children; a text node carries its string.  The HTML parser itself
(BeautifulSoup's `html.parser`) and the network fetcher (Firecrawl) are
external collaborators and appear as injected functions.
-/

/-- Python's `s.startswith(pre)` / the CSS `^=` attribute test, computed on
character lists. -/
def pyStartsWith (s pre : String) : Bool :=
  pre.toList.isPrefixOf s.toList

/-- Python's `s.strip()` (ASCII whitespace), as a character list. -/
def pyStripChars (s : String) : List Char :=
  ((s.toList.dropWhile Char.isWhitespace).reverse.dropWhile Char.isWhitespace).reverse

/-- Python's `s.strip()`. -/
def pyStrip (s : String) : String :=
  String.mk (pyStripChars s)

inductive Node where
  | elem (tag : String) (attrs : List (String × String)) (classes : List String) (children : List Node)
  | text (s : String)

/-- Children of a node (a text node has none). -/
def Node.children : Node → List Node
  | .text _ => []
  | .elem _ _ _ cs => cs

/-- Attribute lookup, `tag.get(key)` / `tag[key] if tag.has_attr(key)`. -/
def Node.attr (n : Node) (key : String) : Option String :=
  match n with
  | .elem _ attrs _ _ => (attrs.find? (fun p => p.1 == key)).map (fun p => p.2)
  | .text _ => none

/-- The multi-valued class attribute, `tag.get("class", [])`. -/
def Node.classList : Node → List String
  | .elem _ _ cls _ => cls
  | .text _ => []

/-- Whether the node is an element with the given tag name. -/
def Node.isTag (n : Node) (t : String) : Bool :=
  match n with
  | .elem tg _ _ _ => tg == t
  | .text _ => false

/-- All nodes of a forest in document (preorder) order: each root followed by
its subtree.  `soup.select(sel)` filters this sequence. -/
def forestNodes : List Node → List Node
  | [] => []
  | .text s :: rest => Node.text s :: forestNodes rest
  | .elem t a c cs :: rest => Node.elem t a c cs :: (forestNodes cs ++ forestNodes rest)

/-- Descendants of a node in document order (the node itself excluded), the
search space of `tag.select(sel)`. -/
def Node.descendants (n : Node) : List Node :=
  forestNodes n.children

/-- Models `tag.select(sel)` for a simple (single compound) selector: all matching
descendants in document order. -/
def selectAll (p : Node → Bool) (n : Node) : List Node :=
  n.descendants.filter p

/-- Models `tag.select_one(sel)`: first matching descendant in document order. -/
def selectOne (p : Node → Bool) (n : Node) : Option Node :=
  (selectAll p n).head?

/-- Models `soup.select(sel)` over the whole document. -/
def selectForest (p : Node → Bool) (soup : List Node) : List Node :=
  (forestNodes soup).filter p

/-- Models `get_text(strip=True)` over a forest: concatenation of the
whitespace-stripped text fragments, in document order. -/
def forestTextStrip : List Node → String
  | [] => ""
  | .text s :: rest => pyStrip s ++ forestTextStrip rest
  | .elem _ _ _ cs :: rest => forestTextStrip cs ++ forestTextStrip rest

/-- Models `tag.get_text(strip=True)`. -/
def Node.getTextStrip : Node → String
  | .text s => pyStrip s
  | .elem _ _ _ cs => forestTextStrip cs

/-- Selector `section[data-test^='post-item']` (matcher part). -/
def isPostItemSection (n : Node) : Bool :=
  n.isTag "section" &&
    (match n.attr "data-test" with
     | some v => pyStartsWith v "post-item"
     | none => false)

/-- Selector `div[data-test^='post-name-']` (matcher part). -/
def isPostNameDiv (n : Node) : Bool :=
  n.isTag "div" &&
    (match n.attr "data-test" with
     | some v => pyStartsWith v "post-name-"
     | none => false)

/-- Selector `button[data-test='vote-button']` (matcher part). -/
def isVoteButton (n : Node) : Bool :=
  n.isTag "button" && n.attr "data-test" == some "vote-button"

/-- Selector `div[data-sentry-component='TagList']` (matcher part). -/
def isTagListDiv (n : Node) : Bool :=
  n.isTag "div" && n.attr "data-sentry-component" == some "TagList"

/-- Preorder search of a forest for the first `div[data-test^='post-name-']`,
returning it together with the siblings that follow it in its parent's child
list.  This models `section.select_one("div[data-test^='post-name-']")`
(first match in document order) while retaining the sibling context that
`title_div.find_next_sibling("div")` needs. -/
def findPostNameDiv : List Node → Option (Node × List Node)
  | [] => none
  | c :: cs =>
    if isPostNameDiv c then some (c, cs)
    else
      match findPostNameDiv c.children with
      | some r => some r
      | none => findPostNameDiv cs
termination_by ns => sizeOf ns
decreasing_by
  · have h : sizeOf c.children ≤ sizeOf c := by
      cases c with
      | text s =>
        simp only [Node.children, Node.text.sizeOf_spec, List.nil.sizeOf_spec]
        omega
      | elem tg at2 cl cs2 =>
        simp only [Node.children, Node.elem.sizeOf_spec]
        omega
    simp only [List.cons.sizeOf_spec]
    omega
  · simp only [List.cons.sizeOf_spec]
    omega

/-- Models `title_div.find_next_sibling("div")`: the first following sibling that is
a `div` element. -/
def nextSiblingDiv (after : List Node) : Option Node :=
  after.find? (fun n => n.isTag "div")

/-- Models `section.select_one("button[data-test='vote-button'] p")`: the first `p`
descendant (document order) of a matching `button` descendant. -/
def selectVoteP (sec : Node) : Option Node :=
  ((selectAll isVoteButton sec).flatMap (fun b => selectAll (fun n => n.isTag "p") b)).head?

/-- Models `section.select("div[data-sentry-component='TagList'] a")`: all anchor
descendants of matching tag-list `div`s. -/
def selectTagAnchors (sec : Node) : List Node :=
  (selectAll isTagListDiv sec).flatMap (fun d => selectAll (fun n => n.isTag "a") d)

/-- One digit part of Python's integer literal grammar: nonempty digits with
single underscores allowed only between digits. -/
def pyDigitSeq : List Char → Bool
  | [] => false
  | c :: cs => c.isDigit && pyDigitRest cs
where
  pyDigitRest : List Char → Bool
    | [] => true
    | '_' :: [] => false
    | '_' :: c :: cs => c.isDigit && pyDigitRest cs
    | c :: cs => c.isDigit && pyDigitRest cs

/-- Numeric value of a digit sequence, ignoring underscores. -/
def pyDigitsVal (cs : List Char) : Int :=
  cs.foldl (fun a c => if c == '_' then a else a * 10 + (c.toNat - 48)) 0

/-- Python's `int(s)` on a decimal string (ASCII): strip surrounding
whitespace, optional sign, then a digit sequence; `none` models `ValueError`. -/
def pyParseInt (s : String) : Option Int :=
  match pyStripChars s with
  | '-' :: rest => if pyDigitSeq rest then some (-(pyDigitsVal rest)) else none
  | '+' :: rest => if pyDigitSeq rest then some (pyDigitsVal rest) else none
  | cs => if pyDigitSeq cs then some (pyDigitsVal cs) else none

/-- Models `title.lower().replace(' ', '-')` (ASCII lowering; the replaced pattern
is a single character, so a character map implements it). -/
def pySlug (title : String) : String :=
  String.mk ((title.toList.map Char.toLower).map (fun c => if c == ' ' then '-' else c))

/-- A product record as assembled by `_extract_single_product`. -/
structure Product where
  index : Nat
  logo : Option String
  title : String
  description : String
  product_url : String
  votes : Int
  tags : List String
  scraped_at : String
deriving Repr, DecidableEq

/-- The logo step: `logo_img["src"] if logo_img and logo_img.has_attr("src")
else None` over `section.select_one("img")`. -/
def extractLogo (sec : Node) : Option String :=
  match selectOne (fun n => n.isTag "img") sec with
  | some img => img.attr "src"
  | none => none

/-- The product-URL steps fused: take the `href` (if present), absolutize a
href that is truthy and starts with `/`, and fall back to the synthesized
posts URL when the (possibly absolutized) URL is falsy (`None` or empty —
absolutization never yields an empty string, so only an originally empty or
absent href reaches the fallback). -/
def finalProductUrl (title : String) (href : Option String) : String :=
  match href with
  | some u =>
    let u2 := if u != "" && pyStartsWith u "/" then "https://www.producthunt.com" ++ u else u
    if u2 == "" then "https://www.producthunt.com/posts/" ++ pySlug title else u2
  | none => "https://www.producthunt.com/posts/" ++ pySlug title

/-- The description steps fused: accept `title_div.find_next_sibling("div")`
only when it carries the `text-secondary` class or the `LegacyText` sentry
component; `description or f"{title} - Product from ProductHunt"` replaces a
missing or falsy (empty) description. -/
def finalDescription (title : String) (after : List Node) : String :=
  match nextSiblingDiv after with
  | some nd =>
    if nd.classList.contains "text-secondary" || nd.attr "data-sentry-component" == some "LegacyText"
    then (if nd.getTextStrip == "" then title ++ " - Product from ProductHunt" else nd.getTextStrip)
    else title ++ " - Product from ProductHunt"
  | none => title ++ " - Product from ProductHunt"

/-- The votes step: `int(vote_button.get_text(strip=True))` guarded by
`try/except`, defaulting to `0`. -/
def extractVotes (sec : Node) : Int :=
  match selectVoteP sec with
  | some vp =>
    match pyParseInt vp.getTextStrip with
    | some v => v
    | none => 0
  | none => 0

/-- The tags step. -/
def extractTags (sec : Node) : List String :=
  (selectTagAnchors sec).map Node.getTextStrip

/-- Models `_extract_single_product(section, index)`.  `now` is the value
`datetime.now().isoformat()` observed at record-assembly time.  The function
is total in the model; the Python `try/except` around the body corresponds to
the fact that no modelled operation can raise.  (The source computes the logo
before the title check; the logo value does not depend on that check, so
hoisting the check preserves the result.) -/
def extract_single_product (now : String) (sec : Node) (index : Nat) : Option Product :=
  match findPostNameDiv sec.children with
  | none => none
  | some (title_div, after) =>
    match selectOne (fun n => n.isTag "a") title_div with
    | none => none
    | some title_link =>
      some {
        index := index
        logo := extractLogo sec
        title := title_link.getTextStrip
        description := finalDescription title_link.getTextStrip after
        product_url := finalProductUrl title_link.getTextStrip (title_link.attr "href")
        votes := extractVotes sec
        tags := extractTags sec
        scraped_at := now
      }

/-- The loop body of `_extract_products_from_html`: walk the located sections
with `enumerate(product_sections, 1)`, keep successful extractions, skip
failures without aborting. -/
def extractLoop (now : String) : List Node → Nat → List Product
  | [], _ => []
  | s :: rest, idx =>
    match extract_single_product now s idx with
    | some p => p :: extractLoop now rest (idx + 1)
    | none => extractLoop now rest (idx + 1)

/-- Models `_extract_products_from_html(soup)`. -/
def extract_products_from_html (now : String) (soup : List Node) : List Product :=
  extractLoop now (selectForest isPostItemSection soup) 1

/-- A section is well formed when it has a post-name marker `div` containing
a hyperlink — exactly the two conditions whose failure makes
`_extract_single_product` return `None`. -/
def wellFormed (sec : Node) : Bool :=
  match findPostNameDiv sec.children with
  | none => false
  | some (d, _) => (selectOne (fun n => n.isTag "a") d).isSome

/-- Python truthiness of an optional int (`None` and `0` are falsy), as used
by `all([...])` in the validators. -/
def pyTruthy : Option Int → Bool
  | none => false
  | some n => n != 0

/-- Python truthiness of an int. -/
def pyTruthyInt (n : Int) : Bool := n != 0

/-- Models an f-string interpolation of an optional int. -/
def pyStrOptInt : Option Int → String
  | some n => toString n
  | none => "None"

/-- Models `_build_leaderboard_url(period, year, month, day, week, featured)`;
`Except.error` models the raised `ValueError`. -/
def build_leaderboard_url (period : String) (year month day week : Option Int)
    (featured : Bool) : Except String String :=
  let base_url := "https://www.producthunt.com/leaderboard"
  if period == "daily" then
    if pyTruthy year && pyTruthy month && pyTruthy day then
      let url_path := "daily/" ++ pyStrOptInt year ++ "/" ++ pyStrOptInt month ++ "/" ++ pyStrOptInt day
      .ok (base_url ++ "/" ++ url_path ++ (if featured then "" else "/all"))
    else .error "Year, month, and day are required for daily leaderboard"
  else if period == "weekly" then
    if pyTruthy year && pyTruthy week then
      let url_path := "weekly/" ++ pyStrOptInt year ++ "/" ++ pyStrOptInt week
      .ok (base_url ++ "/" ++ url_path ++ (if featured then "" else "/all"))
    else .error "Year and week are required for weekly leaderboard"
  else if period == "monthly" then
    if pyTruthy year && pyTruthy month then
      let url_path := "monthly/" ++ pyStrOptInt year ++ "/" ++ pyStrOptInt month
      .ok (base_url ++ "/" ++ url_path ++ (if featured then "" else "/all"))
    else .error "Year and month are required for monthly leaderboard"
  else .error "Period must be \x27daily\x27, \x27weekly\x27, or \x27monthly\x27"

/-- Outcome of the injected Firecrawl fetch: the call raised, or it returned
and the extracted `html` field is `content` (possibly absent). -/
inductive FetchOutcome where
  | err (msg : String)
  | content (html : Option String)

/-- Models `ProductHuntScraper.scrape_leaderboard` / `scrape_producthunt`: build the
URL, fetch, parse (the injected `parse` models BeautifulSoup) and extract.
`Except.error` models an exception propagating to the caller. -/
def scrape_producthunt (fetch : String → FetchOutcome) (parse : String → List Node)
    (now : String) (period : String) (year month day week : Option Int)
    (featured : Bool) : Except String (List Product) :=
  match build_leaderboard_url period year month day week featured with
  | .error e => .error e
  | .ok url =>
    match fetch url with
    | .err m => .error m
    | .content html? =>
      match html? with
      | none => .error "No HTML content found in Firecrawl response"
      | some html =>
        if html == "" then .error "No HTML content found in Firecrawl response"
        else .ok (extract_products_from_html now (parse html))

/-- The `/scrape` request body (`ScrapeRequest` in `main.py`). -/
structure ScrapeRequest where
  api_key : String
  period : String
  year : Int
  month : Option Int
  day : Option Int
  week : Option Int
  featured : Bool

/-- The `/scrape` response body (`ScrapeResponse` in `main.py`). -/
structure ScrapeResponse where
  success : Bool
  products : List Product
  total_found : Nat
  timestamp : String
  message : Option String
  error : Option String
deriving Repr, DecidableEq

/-- What the endpoint hands to the transport layer: an `HTTPException`
(status code and detail) or a serialized `ScrapeResponse`. -/
inductive EndpointResult where
  | httpError (status : Nat) (detail : String)
  | response (r : ScrapeResponse)
deriving DecidableEq

/-- The `POST /scrape` handler `scrape_leaderboard(request)` in `main.py`.
`currentYear` is `datetime.now().year` and `now` the iso timestamps. -/
def scrape_endpoint (fetch : String → FetchOutcome) (parse : String → List Node)
    (now : String) (currentYear : Int) (req : ScrapeRequest) : EndpointResult :=
  if req.period == "daily" && !(pyTruthyInt req.year && pyTruthy req.month && pyTruthy req.day) then
    .httpError 400 "Year, month, and day are required for daily scraping"
  else if req.period == "weekly" && !(pyTruthyInt req.year && pyTruthy req.week) then
    .httpError 400 "Year and week are required for weekly scraping"
  else if req.period == "monthly" && !(pyTruthyInt req.year && pyTruthy req.month) then
    .httpError 400 "Year and month are required for monthly scraping"
  else if req.year < 2013 || req.year > currentYear then
    .httpError 400 "Year must be between 2013 and current year"
  else if req.api_key == "" || !(pyStartsWith req.api_key "fc-") then
    .httpError 400 "Valid Firecrawl API key is required (starts with \x27fc-\x27)"
  else
    match scrape_producthunt fetch parse now req.period (some req.year) req.month req.day
        req.week req.featured with
    | .ok products =>
      .response {
        success := true
        products := products
        total_found := products.length
        timestamp := now
        message := some ("Successfully scraped " ++ toString products.length ++
          " products from ProductHunt " ++ req.period ++ " leaderboard")
        error := none }
    | .error e =>
      .response {
        success := false
        products := []
        total_found := 0
        timestamp := now
        message := none
        error := some e }

/-- The conjunction of the endpoint's validation guards all passing (the
request reaches the scrape call). -/
def passesValidation (currentYear : Int) (req : ScrapeRequest) : Bool :=
  !(req.period == "daily" && !(pyTruthyInt req.year && pyTruthy req.month && pyTruthy req.day)) &&
  !(req.period == "weekly" && !(pyTruthyInt req.year && pyTruthy req.week)) &&
  !(req.period == "monthly" && !(pyTruthyInt req.year && pyTruthy req.month)) &&
  !(req.year < 2013 || req.year > currentYear) &&
  !(req.api_key == "" || !(pyStartsWith req.api_key "fc-"))

/-- Field-identity of two product records up to the extraction timestamp. -/
def sameExceptTime (p q : Product) : Prop :=
  p.index = q.index ∧ p.logo = q.logo ∧ p.title = q.title ∧
  p.description = q.description ∧ p.product_url = q.product_url ∧
  p.votes = q.votes ∧ p.tags = q.tags

/-- Request used to exhibit the behaviour of an unknown period kind: a valid
year, credential and date components, but period `hourly`. -/
def reqUnknownPeriod : ScrapeRequest :=
  { api_key := "fc-test", period := "hourly", year := 2020,
    month := some 1, day := some 2, week := some 3, featured := false }

/-- Request used by the orchestrator witnesses: a valid daily request. -/
def reqDailyValid : ScrapeRequest :=
  { api_key := "fc-key", period := "daily", year := 2024,
    month := some 5, day := some 6, week := none, featured := false }

/-- Concrete container whose vote-button text is a negative number. -/
def negVoteLink : Node := .elem "a" [("href", "/posts/neg")] [] [.text "Neg"]

def negVoteNameDiv : Node := .elem "div" [("data-test", "post-name-neg")] [] [negVoteLink]

def negVoteButton : Node :=
  .elem "button" [("data-test", "vote-button")] [] [.elem "p" [] [] [.text "-5"]]

def negVoteSection : Node :=
  .elem "section" [("data-test", "post-item-neg")] [] [negVoteNameDiv, negVoteButton]

def linkA : Node := .elem "a" [("href", "/posts/acme")] [] [.text "Acme"]

def nameDivA : Node := .elem "div" [("data-test", "post-name-a")] [] [linkA]

def goodSectionA : Node := .elem "section" [("data-test", "post-item-a")] [] [nameDivA]

def linkB : Node := .elem "a" [("href", "/posts/beta")] [] [.text "Beta"]

def nameDivB : Node := .elem "div" [("data-test", "post-name-b")] [] [linkB]

def goodSectionB : Node := .elem "section" [("data-test", "post-item-b")] [] [nameDivB]

def badSectionX : Node := .elem "section" [("data-test", "post-item-x")] [] [.text "broken"]

def soupAB : List Node := [goodSectionA, goodSectionB]

def soupAXB : List Node := [goodSectionA, badSectionX, goodSectionB]

theorem extract_single_product_eq_some (now : String) (sec : Node) (i : Nat)
    (td : Node) (after : List Node) (link : Node)
    (h1 : findPostNameDiv sec.children = some (td, after))
    (h2 : selectOne (fun n => n.isTag "a") td = some link) :
    extract_single_product now sec i = some {
      index := i
      logo := extractLogo sec
      title := link.getTextStrip
      description := finalDescription link.getTextStrip after
      product_url := finalProductUrl link.getTextStrip (link.attr "href")
      votes := extractVotes sec
      tags := extractTags sec
      scraped_at := now } := by
  rw [extract_single_product.eq_def, h1]
  simp only [h2]

theorem extract_single_product_eq_none_title (now : String) (sec : Node) (i : Nat)
    (h1 : findPostNameDiv sec.children = none) :
    extract_single_product now sec i = none := by
  rw [extract_single_product.eq_def, h1]

theorem extract_single_product_eq_none_link (now : String) (sec : Node) (i : Nat)
    (td : Node) (after : List Node)
    (h1 : findPostNameDiv sec.children = some (td, after))
    (h2 : selectOne (fun n => n.isTag "a") td = none) :
    extract_single_product now sec i = none := by
  rw [extract_single_product.eq_def, h1]
  simp only [h2]

theorem extract_single_product_isSome (now : String) (sec : Node) (i : Nat) :
    (extract_single_product now sec i).isSome = wellFormed sec := by
  rw [wellFormed.eq_def]
  cases h1 : findPostNameDiv sec.children with
  | none => rw [extract_single_product_eq_none_title now sec i h1] ; rfl
  | some r =>
    obtain ⟨td, after⟩ := r
    cases h2 : selectOne (fun n => n.isTag "a") td with
    | none =>
      rw [extract_single_product_eq_none_link now sec i td after h1 h2]
      simp [h2]
    | some link =>
      rw [extract_single_product_eq_some now sec i td after link h1 h2]
      simp [h2]

theorem extract_single_product_index (now : String) (sec : Node) (i : Nat)
    (p : Product) (h : extract_single_product now sec i = some p) :
    p.index = i := by
  cases h1 : findPostNameDiv sec.children with
  | none => rw [extract_single_product_eq_none_title now sec i h1] at h ; exact absurd h (by simp)
  | some r =>
    obtain ⟨td, after⟩ := r
    cases h2 : selectOne (fun n => n.isTag "a") td with
    | none =>
      rw [extract_single_product_eq_none_link now sec i td after h1 h2] at h
      exact absurd h (by simp)
    | some link =>
      rw [extract_single_product_eq_some now sec i td after link h1 h2] at h
      cases h
      rfl

theorem extract_single_product_time (t1 t2 : String) (sec : Node) (i : Nat)
    (p q : Product) (hp : extract_single_product t1 sec i = some p)
    (hq : extract_single_product t2 sec i = some q) :
    sameExceptTime p q := by
  cases h1 : findPostNameDiv sec.children with
  | none =>
    rw [extract_single_product_eq_none_title t1 sec i h1] at hp
    exact absurd hp (by simp)
  | some r =>
    obtain ⟨td, after⟩ := r
    cases h2 : selectOne (fun n => n.isTag "a") td with
    | none =>
      rw [extract_single_product_eq_none_link t1 sec i td after h1 h2] at hp
      exact absurd hp (by simp)
    | some link =>
      rw [extract_single_product_eq_some t1 sec i td after link h1 h2] at hp
      rw [extract_single_product_eq_some t2 sec i td after link h1 h2] at hq
      cases hp
      cases hq
      exact ⟨rfl, rfl, rfl, rfl, rfl, rfl, rfl⟩

theorem extractLoop_nil (now : String) (i : Nat) : extractLoop now [] i = [] := by
  rw [extractLoop.eq_def]

theorem extractLoop_cons_some (now : String) (s : Node) (rest : List Node) (i : Nat)
    (p : Product) (h : extract_single_product now s i = some p) :
    extractLoop now (s :: rest) i = p :: extractLoop now rest (i + 1) := by
  rw [extractLoop.eq_def]
  simp only [h]

theorem extractLoop_cons_none (now : String) (s : Node) (rest : List Node) (i : Nat)
    (h : extract_single_product now s i = none) :
    extractLoop now (s :: rest) i = extractLoop now rest (i + 1) := by
  rw [extractLoop.eq_def]
  simp only [h]

theorem extractLoop_map_index (now : String) (sections : List Node) :
    ∀ i : Nat, (∀ s ∈ sections, wellFormed s = true) →
      (extractLoop now sections i).map Product.index = List.range' i sections.length := by
  induction sections with
  | nil => intro i _ ; simp [extractLoop_nil]
  | cons s rest ih =>
    intro i h
    have hwf : wellFormed s = true := h s (List.mem_cons_self s rest)
    have hsome : (extract_single_product now s i).isSome = true := by
      rw [extract_single_product_isSome] ; exact hwf
    obtain ⟨p, hp⟩ := Option.isSome_iff_exists.mp hsome
    have hidx : p.index = i := extract_single_product_index now s i p hp
    rw [extractLoop_cons_some now s rest i p hp, List.map_cons, hidx,
      ih (i + 1) (fun x hx => h x (List.mem_cons_of_mem s hx)),
      List.length_cons, List.range'_succ]

theorem extractLoop_forall2 (now : String) (sections : List Node) :
    ∀ i : Nat, (∀ s ∈ sections, wellFormed s = true) →
      List.Forall₂ (fun (sp : Node × Nat) p => extract_single_product now sp.1 sp.2 = some p)
        (sections.zip (List.range' i sections.length)) (extractLoop now sections i) := by
  induction sections with
  | nil => intro i _ ; simp [extractLoop_nil]
  | cons s rest ih =>
    intro i h
    have hwf : wellFormed s = true := h s (List.mem_cons_self s rest)
    have hsome : (extract_single_product now s i).isSome = true := by
      rw [extract_single_product_isSome] ; exact hwf
    obtain ⟨p, hp⟩ := Option.isSome_iff_exists.mp hsome
    rw [extractLoop_cons_some now s rest i p hp, List.length_cons, List.range'_succ,
      List.zip_cons_cons]
    exact List.Forall₂.cons hp (ih (i + 1) (fun x hx => h x (List.mem_cons_of_mem s hx)))

theorem extractLoop_length (now : String) (sections : List Node) :
    ∀ i : Nat, (extractLoop now sections i).length = (sections.filter wellFormed).length := by
  induction sections with
  | nil => intro i ; simp [extractLoop_nil]
  | cons s rest ih =>
    intro i
    cases hp : extract_single_product now s i with
    | some p =>
      have hwf : wellFormed s = true := by
        rw [← extract_single_product_isSome now s i, hp] ; rfl
      rw [extractLoop_cons_some now s rest i p hp, List.filter_cons_of_pos hwf]
      simp [ih (i + 1)]
    | none =>
      have hwf : wellFormed s = false := by
        rw [← extract_single_product_isSome now s i, hp] ; rfl
      rw [extractLoop_cons_none now s rest i hp, List.filter_cons_of_neg (by simp [hwf])]
      exact ih (i + 1)

theorem extractLoop_mem_of_wf (now : String) (sections : List Node) :
    ∀ (i : Nat) (k : Fin sections.length), wellFormed (sections.get k) = true →
      ∃ p, p ∈ extractLoop now sections i ∧
        extract_single_product now (sections.get k) (i + k.val) = some p := by
  induction sections with
  | nil => intro i k ; exact absurd k.isLt (by simp)
  | cons s rest ih =>
    intro i k hwf
    obtain ⟨kv, hk⟩ := k
    cases kv with
    | zero =>
      have hwf' : wellFormed s = true := hwf
      have hsome : (extract_single_product now s i).isSome = true := by
        rw [extract_single_product_isSome] ; exact hwf'
      obtain ⟨p, hp⟩ := Option.isSome_iff_exists.mp hsome
      rw [extractLoop_cons_some now s rest i p hp]
      exact ⟨p, List.mem_cons_self p _, hp⟩
    | succ j =>
      have hj' : j < rest.length := Nat.lt_of_succ_lt_succ hk
      have hwf' : wellFormed (rest.get ⟨j, hj'⟩) = true := hwf
      obtain ⟨q, hq1, hq2⟩ := ih (i + 1) ⟨j, hj'⟩ hwf'
      have harith : i + 1 + j = i + (j + 1) := by omega
      rw [harith] at hq2
      cases hp : extract_single_product now s i with
      | some p =>
        rw [extractLoop_cons_some now s rest i p hp]
        exact ⟨q, List.mem_cons_of_mem p hq1, hq2⟩
      | none =>
        rw [extractLoop_cons_none now s rest i hp]
        exact ⟨q, hq1, hq2⟩

theorem extractLoop_mem_characterize (now : String) (sections : List Node) :
    ∀ (i : Nat) (p : Product), p ∈ extractLoop now sections i →
      ∃ k : Fin sections.length, p.index = i + k.val ∧
        extract_single_product now (sections.get k) (i + k.val) = some p := by
  induction sections with
  | nil => intro i p hp ; rw [extractLoop_nil] at hp ; cases hp
  | cons s rest ih =>
    intro i p hp
    cases hq : extract_single_product now s i with
    | some q =>
      rw [extractLoop_cons_some now s rest i q hq] at hp
      rcases List.mem_cons.mp hp with h1 | h2
      · subst h1
        refine ⟨⟨0, by simp⟩, ?_, ?_⟩
        · have := extract_single_product_index now s i p hq
          simpa using this
        · show extract_single_product now s (i + 0) = some p
          simpa using hq
      · obtain ⟨⟨j, hj⟩, hk1, hk2⟩ := ih (i + 1) p h2
        have harith : i + 1 + j = i + (j + 1) := by omega
        refine ⟨⟨j + 1, Nat.succ_lt_succ hj⟩, ?_, ?_⟩
        · show p.index = i + (j + 1)
          simp only [] at hk1
          omega
        · show extract_single_product now (rest.get ⟨j, hj⟩) (i + (j + 1)) = some p
          rw [← harith] ; exact hk2
    | none =>
      rw [extractLoop_cons_none now s rest i hq] at hp
      obtain ⟨⟨j, hj⟩, hk1, hk2⟩ := ih (i + 1) p hp
      have harith : i + 1 + j = i + (j + 1) := by omega
      refine ⟨⟨j + 1, Nat.succ_lt_succ hj⟩, ?_, ?_⟩
      · show p.index = i + (j + 1)
        simp only [] at hk1
        omega
      · show extract_single_product now (rest.get ⟨j, hj⟩) (i + (j + 1)) = some p
        rw [← harith] ; exact hk2

theorem extractLoop_index_ge (now : String) (sections : List Node)
    (i : Nat) (p : Product) (hp : p ∈ extractLoop now sections i) : i ≤ p.index := by
  obtain ⟨k, hk1, _⟩ := extractLoop_mem_characterize now sections i p hp
  omega

theorem extractLoop_pairwise (now : String) (sections : List Node) :
    ∀ i : Nat, List.Pairwise (· < ·) ((extractLoop now sections i).map Product.index) := by
  induction sections with
  | nil => intro i ; simp [extractLoop_nil]
  | cons s rest ih =>
    intro i
    cases hp : extract_single_product now s i with
    | some p =>
      rw [extractLoop_cons_some now s rest i p hp, List.map_cons]
      refine List.Pairwise.cons ?_ (ih (i + 1))
      intro a ha
      obtain ⟨q, hq1, hq2⟩ := List.mem_map.mp ha
      have := extractLoop_index_ge now rest (i + 1) q hq1
      have hidx : p.index = i := extract_single_product_index now s i p hp
      omega
    | none =>
      rw [extractLoop_cons_none now s rest i hp]
      exact ih (i + 1)

theorem extractLoop_time (t1 t2 : String) (sections : List Node) :
    ∀ i : Nat, List.Forall₂ sameExceptTime (extractLoop t1 sections i) (extractLoop t2 sections i) := by
  induction sections with
  | nil => intro i ; simp [extractLoop_nil]
  | cons s rest ih =>
    intro i
    cases hp : extract_single_product t1 s i with
    | some p =>
      have hsome : (extract_single_product t2 s i).isSome = true := by
        rw [extract_single_product_isSome, ← extract_single_product_isSome t1 s i, hp] ; rfl
      obtain ⟨q, hq⟩ := Option.isSome_iff_exists.mp hsome
      rw [extractLoop_cons_some t1 s rest i p hp, extractLoop_cons_some t2 s rest i q hq]
      exact List.Forall₂.cons (extract_single_product_time t1 t2 s i p q hp hq) (ih (i + 1))
    | none =>
      have hnone : extract_single_product t2 s i = none := by
        cases hq : extract_single_product t2 s i with
        | none => rfl
        | some q =>
          have h1 : (extract_single_product t1 s i).isSome = (extract_single_product t2 s i).isSome := by
            rw [extract_single_product_isSome, extract_single_product_isSome]
          rw [hp, hq] at h1 ; cases h1
      rw [extractLoop_cons_none t1 s rest i hp, extractLoop_cons_none t2 s rest i hnone]
      exact ih (i + 1)

theorem build_url_isOk (period : String) (y m d w : Option Int) (f : Bool)
    (h : (period = "daily" ∧ pyTruthy y = true ∧ pyTruthy m = true ∧ pyTruthy d = true) ∨
         (period = "weekly" ∧ pyTruthy y = true ∧ pyTruthy w = true) ∨
         (period = "monthly" ∧ pyTruthy y = true ∧ pyTruthy m = true)) :
    ∃ url, build_leaderboard_url period y m d w f = .ok url := by
  rcases h with ⟨hp, hy, hm, hd⟩ | ⟨hp, hy, hw⟩ | ⟨hp, hy, hm⟩ <;> subst hp <;>
    simp [build_leaderboard_url, *]

theorem scrape_producthunt_fetch_err (parse : String → List Node) (now : String)
    (period : String) (y m d w : Option Int) (f : Bool) (url msg : String)
    (hok : build_leaderboard_url period y m d w f = .ok url) :
    scrape_producthunt (fun _ => .err msg) parse now period y m d w f = .error msg := by
  rw [scrape_producthunt.eq_def, hok]

theorem scrape_producthunt_fetch_none (parse : String → List Node) (now : String)
    (period : String) (y m d w : Option Int) (f : Bool) (url : String)
    (hok : build_leaderboard_url period y m d w f = .ok url) :
    scrape_producthunt (fun _ => .content none) parse now period y m d w f =
      .error "No HTML content found in Firecrawl response" := by
  rw [scrape_producthunt.eq_def, hok]

theorem scrape_producthunt_fetch_empty (parse : String → List Node) (now : String)
    (period : String) (y m d w : Option Int) (f : Bool) (url : String)
    (hok : build_leaderboard_url period y m d w f = .ok url) :
    scrape_producthunt (fun _ => .content (some "")) parse now period y m d w f =
      .error "No HTML content found in Firecrawl response" := by
  rw [scrape_producthunt.eq_def, hok]
  simp

theorem scrape_producthunt_fetch_ok (parse : String → List Node) (now : String)
    (period : String) (y m d w : Option Int) (f : Bool) (url html : String)
    (hok : build_leaderboard_url period y m d w f = .ok url)
    (hne : html ≠ "") :
    scrape_producthunt (fun _ => .content (some html)) parse now period y m d w f =
      .ok (extract_products_from_html now (parse html)) := by
  rw [scrape_producthunt.eq_def, hok]
  simp [hne]

theorem scrape_producthunt_build_err (fetch : String → FetchOutcome)
    (parse : String → List Node) (now : String)
    (period : String) (y m d w : Option Int) (f : Bool) (e : String)
    (herr : build_leaderboard_url period y m d w f = .error e) :
    scrape_producthunt fetch parse now period y m d w f = .error e := by
  rw [scrape_producthunt.eq_def, herr]

theorem scrape_endpoint_valid_ok (fetch : String → FetchOutcome) (parse : String → List Node)
    (now : String) (currentYear : Int) (req : ScrapeRequest)
    (hval : passesValidation currentYear req = true) (products : List Product)
    (hsc : scrape_producthunt fetch parse now req.period (some req.year) req.month req.day
      req.week req.featured = .ok products) :
    scrape_endpoint fetch parse now currentYear req =
      .response {
        success := true
        products := products
        total_found := products.length
        timestamp := now
        message := some ("Successfully scraped " ++ toString products.length ++
          " products from ProductHunt " ++ req.period ++ " leaderboard")
        error := none } := by
  unfold passesValidation at hval
  simp only [Bool.and_eq_true, Bool.not_eq_true'] at hval
  obtain ⟨⟨⟨⟨g1, g2⟩, g3⟩, g4⟩, g5⟩ := hval
  unfold scrape_endpoint
  rw [g1, g2, g3, g4, g5, hsc]
  simp

theorem scrape_endpoint_valid_err (fetch : String → FetchOutcome) (parse : String → List Node)
    (now : String) (currentYear : Int) (req : ScrapeRequest)
    (hval : passesValidation currentYear req = true) (e : String)
    (hsc : scrape_producthunt fetch parse now req.period (some req.year) req.month req.day
      req.week req.featured = .error e) :
    scrape_endpoint fetch parse now currentYear req =
      .response {
        success := false
        products := []
        total_found := 0
        timestamp := now
        message := none
        error := some e } := by
  unfold passesValidation at hval
  simp only [Bool.and_eq_true, Bool.not_eq_true'] at hval
  obtain ⟨⟨⟨⟨g1, g2⟩, g3⟩, g4⟩, g5⟩ := hval
  unfold scrape_endpoint
  rw [g1, g2, g3, g4, g5, hsc]
  simp

theorem extract_single_product_inv (now : String) (sec : Node) (i : Nat) (p : Product)
    (h : extract_single_product now sec i = some p) :
    ∃ td after link, findPostNameDiv sec.children = some (td, after) ∧
      selectOne (fun n => n.isTag "a") td = some link ∧
      p = { index := i
            logo := extractLogo sec
            title := link.getTextStrip
            description := finalDescription link.getTextStrip after
            product_url := finalProductUrl link.getTextStrip (link.attr "href")
            votes := extractVotes sec
            tags := extractTags sec
            scraped_at := now } := by
  cases h1 : findPostNameDiv sec.children with
  | none =>
    rw [extract_single_product_eq_none_title now sec i h1] at h
    exact absurd h (by simp)
  | some r =>
    obtain ⟨td, after⟩ := r
    cases h2 : selectOne (fun n => n.isTag "a") td with
    | none =>
      rw [extract_single_product_eq_none_link now sec i td after h1 h2] at h
      exact absurd h (by simp)
    | some link =>
      rw [extract_single_product_eq_some now sec i td after link h1 h2] at h
      cases h
      exact ⟨td, after, link, rfl, h2, rfl⟩

theorem extract_single_product_votes_field (now : String) (sec : Node) (i : Nat) (p : Product)
    (h : extract_single_product now sec i = some p) :
    p.votes = extractVotes sec := by
  obtain ⟨td, after, link, _, _, hp⟩ := extract_single_product_inv now sec i p h
  rw [hp]

/-- C3, counterexample: a request whose period kind is none of daily, weekly
or monthly is NOT surfaced as a client-error signal: the endpoint validation
has no unknown-period branch, so the request reaches the scraper, whose URL
builder raises; the endpoint catches it and returns a result payload with
success=false.  (No fetch occurs, but the surfacing is a `.response`, not an
`.httpError`.) -/
theorem claim3_counterexample :
    scrape_endpoint (fun _ => .content (some "<html></html>")) (fun _ => []) "t" 2025
        reqUnknownPeriod =
      .response {
        success := false
        products := []
        total_found := 0
        timestamp := "t"
        message := none
        error := some "Period must be \x27daily\x27, \x27weekly\x27, or \x27monthly\x27" } := by
  decide

/-- C3, amended: for every scrape request whose period kind is none of daily,
weekly or monthly (and whose year and credential pass the other validations),
no fetch occurs — the result is the same for every fetcher — but the failure
is surfaced as a result payload marked success=false carrying the
invalid-period message, not as a client-error signal. -/
theorem claim3_amended (fetch : String → FetchOutcome) (parse : String → List Node)
    (now : String) (currentYear : Int) (req : ScrapeRequest)
    (h1 : req.period ≠ "daily") (h2 : req.period ≠ "weekly") (h3 : req.period ≠ "monthly")
    (hy1 : 2013 ≤ req.year) (hy2 : req.year ≤ currentYear)
    (hk : pyStartsWith req.api_key "fc-" = true) :
    scrape_endpoint fetch parse now currentYear req =
      .response {
        success := false
        products := []
        total_found := 0
        timestamp := now
        message := none
        error := some "Period must be \x27daily\x27, \x27weekly\x27, or \x27monthly\x27" } := by
  have hne : req.api_key ≠ "" := by
    intro he
    rw [he] at hk
    exact absurd hk (by decide)
  have hval : passesValidation currentYear req = true := by
    simp [passesValidation, beq_iff_eq, h1, h2, h3, hk, hne]
    omega
  have herr : build_leaderboard_url req.period (some req.year) req.month req.day req.week
      req.featured = .error "Period must be \x27daily\x27, \x27weekly\x27, or \x27monthly\x27" := by
    simp [build_leaderboard_url, beq_iff_eq, h1, h2, h3]
  exact scrape_endpoint_valid_err fetch parse now currentYear req hval _
    (scrape_producthunt_build_err fetch parse now req.period (some req.year) req.month
      req.day req.week req.featured _ herr)

theorem claim3_witness :
    scrape_endpoint (fun _ => .err "never fetched") (fun _ => []) "t" 2025 reqUnknownPeriod =
      .response {
        success := false
        products := []
        total_found := 0
        timestamp := "t"
        message := none
        error := some "Period must be \x27daily\x27, \x27weekly\x27, or \x27monthly\x27" } :=
  claim3_amended (fun _ => .err "never fetched") (fun _ => []) "t" 2025 reqUnknownPeriod
    (by decide) (by decide) (by decide) (by decide) (by decide) (by decide)

/-- C5: for every request that passes the endpoint validation (with a known
period kind), a failing fetch, an absent html field, or empty content all
yield a well-formed `.response` with success=false and an error message — the
failure is not raised as an `.httpError` to the transport layer. -/
theorem claim5_fetch_failure (parse : String → List Node) (now : String)
    (currentYear : Int) (req : ScrapeRequest) (msg : String)
    (hper : req.period = "daily" ∨ req.period = "weekly" ∨ req.period = "monthly")
    (hval : passesValidation currentYear req = true) :
    (scrape_endpoint (fun _ => .err msg) parse now currentYear req =
      .response {
        success := false
        products := []
        total_found := 0
        timestamp := now
        message := none
        error := some msg }) ∧
    (scrape_endpoint (fun _ => .content none) parse now currentYear req =
      .response {
        success := false
        products := []
        total_found := 0
        timestamp := now
        message := none
        error := some "No HTML content found in Firecrawl response" }) ∧
    (scrape_endpoint (fun _ => .content (some "")) parse now currentYear req =
      .response {
        success := false
        products := []
        total_found := 0
        timestamp := now
        message := none
        error := some "No HTML content found in Firecrawl response" }) := by
  have hvc := hval
  unfold passesValidation at hvc
  simp only [Bool.and_eq_true, Bool.not_eq_true'] at hvc
  obtain ⟨⟨⟨⟨g1, g2⟩, g3⟩, g4⟩, g5⟩ := hvc
  have hok : ∃ url, build_leaderboard_url req.period (some req.year) req.month req.day
      req.week req.featured = .ok url := by
    apply build_url_isOk
    rcases hper with hp | hp | hp
    · rw [hp] at g1
      simp only [beq_self_eq_true, Bool.true_and, Bool.not_eq_false', Bool.and_eq_true] at g1
      exact Or.inl ⟨hp, ⟨g1.1.1, g1.1.2, g1.2⟩⟩
    · rw [hp] at g2
      simp only [beq_self_eq_true, Bool.true_and, Bool.not_eq_false', Bool.and_eq_true] at g2
      exact Or.inr (Or.inl ⟨hp, g2.1, g2.2⟩)
    · rw [hp] at g3
      simp only [beq_self_eq_true, Bool.true_and, Bool.not_eq_false', Bool.and_eq_true] at g3
      exact Or.inr (Or.inr ⟨hp, g3.1, g3.2⟩)
  obtain ⟨url, hurl⟩ := hok
  refine ⟨?_, ?_, ?_⟩
  · exact scrape_endpoint_valid_err _ parse now currentYear req hval msg
      (scrape_producthunt_fetch_err parse now req.period (some req.year) req.month req.day
        req.week req.featured url msg hurl)
  · exact scrape_endpoint_valid_err _ parse now currentYear req hval _
      (scrape_producthunt_fetch_none parse now req.period (some req.year) req.month req.day
        req.week req.featured url hurl)
  · exact scrape_endpoint_valid_err _ parse now currentYear req hval _
      (scrape_producthunt_fetch_empty parse now req.period (some req.year) req.month req.day
        req.week req.featured url hurl)

theorem claim5_witness :
    scrape_endpoint (fun _ => .err "boom") (fun _ => []) "t" 2025 reqDailyValid =
      .response {
        success := false
        products := []
        total_found := 0
        timestamp := "t"
        message := none
        error := some "boom" } :=
  (claim5_fetch_failure (fun _ => []) "t" 2025 reqDailyValid "boom"
    (Or.inl (by decide)) (by decide)).1

/-- C6: in every `ScrapeResponse` the endpoint hands back — success or
failure — the total_found field equals the length of the products sequence. -/
theorem claim6_total_found (fetch : String → FetchOutcome) (parse : String → List Node)
    (now : String) (currentYear : Int) (req : ScrapeRequest) (r : ScrapeResponse)
    (h : scrape_endpoint fetch parse now currentYear req = .response r) :
    r.total_found = r.products.length := by
  unfold scrape_endpoint at h
  repeat' split at h
  all_goals cases h <;> rfl

theorem claim6_witness :
    (ScrapeResponse.mk false [] 0 "t" none (some "boom")).total_found =
      (ScrapeResponse.mk false [] 0 "t" none (some "boom")).products.length :=
  claim6_total_found (fun _ => .err "boom") (fun _ => []) "t" 2025 reqDailyValid
    (ScrapeResponse.mk false [] 0 "t" none (some "boom")) (by decide)

/-- C1: for markup whose located item containers are all well formed (post-name
marker with a hyperlink), extraction returns exactly one record per container,
in document order — the k-th record comes from the k-th container — and the
index fields are exactly 1..N in order. -/
theorem claim1_wellformed_extraction (now : String) (soup : List Node)
    (h : ∀ s ∈ selectForest isPostItemSection soup, wellFormed s = true) :
    (extract_products_from_html now soup).length =
      (selectForest isPostItemSection soup).length ∧
    (extract_products_from_html now soup).map Product.index =
      List.range' 1 (selectForest isPostItemSection soup).length ∧
    List.Forall₂ (fun (sp : Node × Nat) p => extract_single_product now sp.1 sp.2 = some p)
      ((selectForest isPostItemSection soup).zip
        (List.range' 1 (selectForest isPostItemSection soup).length))
      (extract_products_from_html now soup) := by
  have hmap := extractLoop_map_index now (selectForest isPostItemSection soup) 1 h
  have hf2 := extractLoop_forall2 now (selectForest isPostItemSection soup) 1 h
  refine ⟨?_, ?_, ?_⟩
  · have := congrArg List.length hmap
    simpa [extract_products_from_html] using this
  · simpa [extract_products_from_html] using hmap
  · simpa [extract_products_from_html] using hf2

/-- C2: in any markup, a container without the post-name marker or without
its hyperlink contributes zero records — the record count equals the number
of well-formed containers — while every well-formed container still produces
a record in the output, and the overall scrape still succeeds (a fetch that
delivers such markup yields an `.ok` result, never an error). -/
theorem claim2_isolation (now : String) (soup : List Node) :
    (extract_products_from_html now soup).length =
      ((selectForest isPostItemSection soup).filter wellFormed).length ∧
    (∀ k : Fin (selectForest isPostItemSection soup).length,
      wellFormed ((selectForest isPostItemSection soup).get k) = true →
        ∃ p, p ∈ extract_products_from_html now soup ∧
          extract_single_product now ((selectForest isPostItemSection soup).get k)
            (1 + k.val) = some p) ∧
    (∀ (period : String) (y m d w : Option Int) (f : Bool) (url html : String)
        (parse : String → List Node),
      build_leaderboard_url period y m d w f = .ok url → html ≠ "" → parse html = soup →
        scrape_producthunt (fun _ => .content (some html)) parse now period y m d w f =
          .ok (extract_products_from_html now soup)) := by
  refine ⟨?_, ?_, ?_⟩
  · exact extractLoop_length now (selectForest isPostItemSection soup) 1
  · intro k hk
    exact extractLoop_mem_of_wf now (selectForest isPostItemSection soup) 1 k hk
  · intro period y m d w f url html parse hok hne hparse
    rw [scrape_producthunt_fetch_ok parse now period y m d w f url html hok hne, hparse]

/-- C9: extraction is deterministic up to the timestamp: two runs over the
same markup, observed at timestamps t1 and t2, produce records that agree on
every field except scraped_at, pairwise in order (in particular the two runs
produce equally many records). -/
theorem claim9_idempotence (t1 t2 : String) (soup : List Node) :
    List.Forall₂ sameExceptTime (extract_products_from_html t1 soup)
      (extract_products_from_html t2 soup) :=
  extractLoop_time t1 t2 (selectForest isPostItemSection soup) 1

/-- C10: each returned record's index is the 1-based position of its
container among all located containers (the attempt ordinal), so a skipped
malformed container consumes an index slot: the output indices are strictly
increasing, may contain gaps, and are never renumbered to output ordinals. -/
theorem claim10_index_attempt_ordinal (now : String) (soup : List Node) :
    List.Pairwise (· < ·) ((extract_products_from_html now soup).map Product.index) ∧
    ∀ p ∈ extract_products_from_html now soup,
      ∃ k : Fin (selectForest isPostItemSection soup).length,
        p.index = 1 + k.val ∧
        extract_single_product now ((selectForest isPostItemSection soup).get k)
          (1 + k.val) = some p := by
  refine ⟨?_, ?_⟩
  · exact extractLoop_pairwise now (selectForest isPostItemSection soup) 1
  · intro p hp
    exact extractLoop_mem_characterize now (selectForest isPostItemSection soup) 1 p hp

theorem extractVotes_negVoteSection : extractVotes negVoteSection = -5 := by
  have hv : selectVoteP negVoteSection = some (Node.elem "p" [] [] [.text "-5"]) := by
    simp +decide [selectVoteP, selectAll, Node.descendants, forestNodes, Node.children,
      negVoteSection, negVoteNameDiv, negVoteLink, negVoteButton, isVoteButton,
      Node.isTag, Node.attr, List.filter_cons, List.filter_nil, List.flatMap_cons,
      List.flatMap_nil]
  rw [extractVotes.eq_def, hv]
  have htext : (Node.elem "p" [] [] [.text "-5"]).getTextStrip = "-5" := by
    simp +decide [Node.getTextStrip, forestTextStrip, pyStrip, pyStripChars]
  show (match pyParseInt (Node.elem "p" [] [] [.text "-5"]).getTextStrip with
        | some v => v
        | none => 0) = -5
  rw [htext]
  decide

/-- C7, counterexample: the votes field is NOT always non-negative — Python's
`int()` accepts a sign, so markup whose vote-button text is `-5` extracts a
record with `votes = -5 < 0`.  (The defaulting part of the claim is true and
is proved as the amended theorem.) -/
theorem claim7_counterexample :
    (extract_products_from_html "t" [negVoteSection]).map Product.votes = [(-5 : Int)] ∧
    ¬(0 : Int) ≤ (-5 : Int) := by
  have hsec : selectForest isPostItemSection [negVoteSection] = [negVoteSection] := by
    simp +decide [selectForest, forestNodes, negVoteSection, negVoteNameDiv, negVoteLink,
      negVoteButton, isPostItemSection, Node.isTag, Node.attr, pyStartsWith,
      List.filter_cons, List.filter_nil]
  have h1 : findPostNameDiv negVoteSection.children = some (negVoteNameDiv, [negVoteButton]) := by
    simp +decide [findPostNameDiv, negVoteSection, negVoteNameDiv, negVoteLink, negVoteButton,
      isPostNameDiv, Node.children, Node.isTag, Node.attr, pyStartsWith]
  have h2 : selectOne (fun n => n.isTag "a") negVoteNameDiv = some negVoteLink := by
    simp +decide [selectOne, selectAll, Node.descendants, forestNodes, Node.children,
      negVoteNameDiv, negVoteLink, Node.isTag, List.filter_cons, List.filter_nil]
  have hrec := extract_single_product_eq_some "t" negVoteSection 1 negVoteNameDiv
    [negVoteButton] negVoteLink h1 h2
  constructor
  · rw [extract_products_from_html, hsec,
      extractLoop_cons_some "t" negVoteSection [] 1 _ hrec, extractLoop_nil]
    simp [extractVotes_negVoteSection]
  · decide

/-- C7, amended: the votes field equals the integer parsed from the
vote-button text when that parse succeeds (and is therefore negative exactly
when the markup carries a negative number), and equals 0 whenever the
vote-button element is absent or its nested text does not parse as an
integer. -/
theorem claim7_votes_default (now : String) (sec : Node) (i : Nat) (p : Product)
    (h : extract_single_product now sec i = some p) :
    (selectVoteP sec = none → p.votes = 0) ∧
    (∀ vp, selectVoteP sec = some vp → pyParseInt vp.getTextStrip = none → p.votes = 0) ∧
    (∀ vp v, selectVoteP sec = some vp → pyParseInt vp.getTextStrip = some v → p.votes = v) := by
  have hv := extract_single_product_votes_field now sec i p h
  refine ⟨?_, ?_, ?_⟩
  · intro hn
    rw [hv, extractVotes.eq_def, hn]
  · intro vp hvp hpn
    rw [hv, extractVotes.eq_def, hvp]
    simp only [hpn]
  · intro vp v hvp hpv
    rw [hv, extractVotes.eq_def, hvp]
    simp only [hpv]

/-- C8: a record whose href starts with a single leading `/` (site-relative)
gets the fixed site origin prefixed to produce its product_url. -/
theorem claim8_relative_href (now : String) (sec : Node) (i : Nat)
    (td link : Node) (after : List Node) (u : String)
    (h1 : findPostNameDiv sec.children = some (td, after))
    (h2 : selectOne (fun n => n.isTag "a") td = some link)
    (h3 : link.attr "href" = some u)
    (h4 : pyStartsWith u "/" = true)
    (h5 : pyStartsWith u "//" = false) :
    ∃ p, extract_single_product now sec i = some p ∧
      p.product_url = "https://www.producthunt.com" ++ u := by
  have hrec := extract_single_product_eq_some now sec i td after link h1 h2
  refine ⟨_, hrec, ?_⟩
  have hne : u ≠ "" := by
    intro he
    rw [he] at h4
    exact absurd h4 (by decide)
  have hcond : (u != "" && pyStartsWith u "/") = true := by
    simp [h4, hne]
  show finalProductUrl link.getTextStrip (link.attr "href") = "https://www.producthunt.com" ++ u
  rw [h3, finalProductUrl.eq_def]
  simp only [hcond, if_true]
  have hne2 : (("https://www.producthunt.com" ++ u) == "") = false := by
    rw [beq_eq_false_iff_ne]
    intro he
    have hl := congrArg String.length he
    rw [String.length_append] at hl
    have h27 : String.length "https://www.producthunt.com" = 27 := by decide
    have h0 : String.length "" = 0 := by decide
    rw [h27, h0] at hl
    omega
  rw [hne2]
  simp

theorem findA : findPostNameDiv goodSectionA.children = some (nameDivA, []) := by
  simp +decide [findPostNameDiv, goodSectionA, nameDivA, linkA, isPostNameDiv,
    Node.children, Node.isTag, Node.attr, pyStartsWith]

theorem selA : selectOne (fun n => n.isTag "a") nameDivA = some linkA := by
  simp +decide [selectOne, selectAll, Node.descendants, forestNodes, Node.children,
    nameDivA, linkA, Node.isTag, List.filter_cons, List.filter_nil]

theorem findB : findPostNameDiv goodSectionB.children = some (nameDivB, []) := by
  simp +decide [findPostNameDiv, goodSectionB, nameDivB, linkB, isPostNameDiv,
    Node.children, Node.isTag, Node.attr, pyStartsWith]

theorem selB : selectOne (fun n => n.isTag "a") nameDivB = some linkB := by
  simp +decide [selectOne, selectAll, Node.descendants, forestNodes, Node.children,
    nameDivB, linkB, Node.isTag, List.filter_cons, List.filter_nil]

theorem findX : findPostNameDiv badSectionX.children = none := by
  simp +decide [findPostNameDiv, badSectionX, isPostNameDiv,
    Node.children, Node.isTag, Node.attr, pyStartsWith]

theorem wfA : wellFormed goodSectionA = true := by
  rw [wellFormed.eq_def, findA]
  simp [selA]

theorem wfB : wellFormed goodSectionB = true := by
  rw [wellFormed.eq_def, findB]
  simp [selB]

theorem wfX : wellFormed badSectionX = false := by
  rw [wellFormed.eq_def, findX]

theorem sectionsAB : selectForest isPostItemSection soupAB = [goodSectionA, goodSectionB] := by
  simp +decide [selectForest, forestNodes, soupAB, goodSectionA, goodSectionB,
    nameDivA, nameDivB, linkA, linkB, isPostItemSection, Node.isTag, Node.attr,
    pyStartsWith, List.filter_cons, List.filter_nil]

theorem sectionsAXB :
    selectForest isPostItemSection soupAXB = [goodSectionA, badSectionX, goodSectionB] := by
  simp +decide [selectForest, forestNodes, soupAXB, goodSectionA, goodSectionB, badSectionX,
    nameDivA, nameDivB, linkA, linkB, isPostItemSection, Node.isTag, Node.attr,
    pyStartsWith, List.filter_cons, List.filter_nil]

theorem claim1_witness :
    (extract_products_from_html "t" soupAB).map Product.index = [1, 2] := by
  have hwf : ∀ s ∈ selectForest isPostItemSection soupAB, wellFormed s = true := by
    rw [sectionsAB]
    intro s hs
    simp only [List.mem_cons, List.not_mem_nil, or_false] at hs
    rcases hs with rfl | rfl
    · exact wfA
    · exact wfB
  have h := (claim1_wellformed_extraction "t" soupAB hwf).2.1
  rw [h, sectionsAB]
  decide

theorem claim2_witness :
    (extract_products_from_html "t" soupAXB).length = 2 := by
  have h := (claim2_isolation "t" soupAXB).1
  rw [h, sectionsAXB]
  simp [List.filter_cons, wfA, wfX, wfB]

theorem claim10_witness :
    List.Pairwise Nat.lt ((extract_products_from_html "t" soupAXB).map Product.index) ∧
    (extract_products_from_html "t" soupAXB).map Product.index = [1, 3] := by
  constructor
  · exact (claim10_index_attempt_ordinal "t" soupAXB).1
  · have hrecA := extract_single_product_eq_some "t" goodSectionA 1 nameDivA [] linkA findA selA
    have hrecB := extract_single_product_eq_some "t" goodSectionB 3 nameDivB [] linkB findB selB
    have hrecX := extract_single_product_eq_none_title "t" badSectionX 2 findX
    rw [extract_products_from_html, sectionsAXB,
      extractLoop_cons_some "t" goodSectionA [badSectionX, goodSectionB] 1 _ hrecA,
      extractLoop_cons_none "t" badSectionX [goodSectionB] 2 hrecX,
      extractLoop_cons_some "t" goodSectionB [] 3 _ hrecB,
      extractLoop_nil]
    rfl

theorem claim7_witness :
    (extract_single_product "t" goodSectionA 1).map Product.votes = some 0 := by
  have hrec := extract_single_product_eq_some "t" goodSectionA 1 nameDivA [] linkA findA selA
  have hv : selectVoteP goodSectionA = none := by
    simp +decide [selectVoteP, selectAll, Node.descendants, forestNodes, Node.children,
      goodSectionA, nameDivA, linkA, isVoteButton, Node.isTag, Node.attr,
      List.filter_cons, List.filter_nil, List.flatMap_cons, List.flatMap_nil]
  have h := (claim7_votes_default "t" goodSectionA 1 _ hrec).1 hv
  rw [hrec]
  simpa using h

theorem claim8_witness :
    (extract_single_product "t" goodSectionA 1).map Product.product_url =
      some "https://www.producthunt.com/posts/acme" := by
  have ha : linkA.attr "href" = some "/posts/acme" := by
    simp +decide [linkA, Node.attr]
  obtain ⟨p, hp, hu⟩ := claim8_relative_href "t" goodSectionA 1 nameDivA linkA [] "/posts/acme"
    findA selA ha (by decide) (by decide)
  rw [hp]
  simp only [Option.map_some']
  rw [hu]
  exact congrArg some (by decide)
